import Mathlib

/-
Verification development for the cosmic-applet-ollama core
(streaming chat client, context aggregation, history persistence).

Each definition below is a shallow embedding of a function from the
repository's Rust source (src/ollama.rs, src/context.rs, src/history.rs).
External effects (HTTP transport, process invocation, the filesystem,
serde_json) are abstracted as explicit parameters describing their
outcomes; everything the repository's own code does is modelled exactly.
-/

set_option maxHeartbeats 1000000
set_option maxRecDepth 100000

/-- Splits a character sequence at newline characters; always returns at
least one (possibly empty) segment, like `String.splitOn "\n"`. -/
def splitNl : List Char → List (List Char)
  | [] => [[]]
  | c :: cs =>
    if c = '\n' then [] :: splitNl cs
    else
      match splitNl cs with
      | [] => [[c]]
      | l :: ls => (c :: l) :: ls

/-- Mirrors Rust `str::lines` as used at src/ollama.rs:279 and
src/context.rs:77: split on a newline character, drop the final empty
segment produced by a trailing newline, and strip one trailing
carriage return from each line. -/
def rustLines (s : String) : List String :=
  let segs := splitNl s.data
  let segs := if segs.getLast? = some [] then segs.dropLast else segs
  segs.map (fun l => String.mk (if l.getLast? = some '\r' then l.dropLast else l))

/-- Message content in a streaming chunk (struct `StreamMessage`, src/ollama.rs:92-95). -/
structure StreamMessage where
  content : String
deriving DecidableEq

/-- One parsed NDJSON object of the streaming response
(struct `StreamChunk`, src/ollama.rs:62-67). -/
structure StreamChunk where
  message : Option StreamMessage
  done : Bool
deriving DecidableEq

/-- Event sent during a streaming response (enum `StreamEvent`, src/ollama.rs:97-106). -/
inductive StreamEvent where
  | Chunk (s : String)
  | Done
  | Error (s : String)
deriving DecidableEq

/-- Outcome of the initial HTTP POST of `chat_stream` (src/ollama.rs:252-272):
either a transport failure, or a response with a status code and a body
delivered as a sequence of raw chunk results, each an `Ok` text chunk
(`from_utf8_lossy` applied to the bytes) or a mid-stream transport `error`. -/
inductive SendResult where
  | connErr (e : String)
  | response (status : Nat) (body : List (Except String String))

/-- Mirrors `reqwest::StatusCode::is_success`: status in 200..=299. -/
def statusIsSuccess (status : Nat) : Bool :=
  200 ≤ status && status < 300

/-- The inner per-line loop of the background task (src/ollama.rs:279-303),
in continuation-passing form: `k` is the event sequence the task would
produce after exhausting the current chunk's lines.  Empty lines are
skipped; a parse failure emits `Error` and returns; `done = true` emits
`Done` and returns; a present non-empty `message.content` emits `Chunk`.
Sends are modelled as succeeding (the consumer keeps its receiver). -/
def runLines (parse : String → Except String StreamChunk)
    (k : List StreamEvent) : List String → List StreamEvent
  | [] => k
  | line :: ls =>
    if line = "" then runLines parse k ls
    else
      match parse line with
      | .error e => [.Error ("Parse error: " ++ e)]
      | .ok c =>
        if c.done then [.Done]
        else
          match c.message with
          | some m =>
            if m.content = "" then runLines parse k ls
            else .Chunk m.content :: runLines parse k ls
          | none => runLines parse k ls

/-- The outer chunk loop of the background task (src/ollama.rs:274-315):
a mid-stream transport error emits `Error` and returns; end of the byte
stream without a `done` line emits `Done` (src/ollama.rs:314-315). -/
def runChunks (parse : String → Except String StreamChunk) :
    List (Except String String) → List StreamEvent
  | [] => [.Done]
  | .error e :: _ => [.Error ("Stream error: " ++ e)]
  | .ok text :: rest => runLines parse (runChunks parse rest) (rustLines text)

/-- The full event sequence the background task spawned by `chat_stream`
(src/ollama.rs:251-316) places on its channel, given the transport
outcome `r` and the NDJSON line parser `parse` (serde_json is external,
so the parser is a parameter).  When the task returns, its sender is
dropped and the channel closes, so this list is everything the consumer
ever observes. -/
def chat_stream_events (parse : String → Except String StreamChunk)
    (r : SendResult) : List StreamEvent :=
  match r with
  | .connErr e => [.Error ("Connection error: " ++ e)]
  | .response status body =>
    if statusIsSuccess status then runChunks parse body
    else [.Error ("Ollama error: " ++ toString status)]

/- ### History persistence (src/history.rs) -/

/-- Maximum number of messages to keep in history (src/history.rs:13). -/
def MAX_HISTORY_SIZE : Nat := 100

/-- A single chat message in the history (struct `HistoryMessage`, src/history.rs:16-22). -/
structure HistoryMessage where
  role : String
  content : String
deriving DecidableEq

/-- Chat history container (struct `ChatHistory`, src/history.rs:25-31). -/
structure ChatHistory where
  version : Nat
  messages : List HistoryMessage
deriving DecidableEq

/-- Current history format version (src/history.rs:35). -/
def ChatHistory.CURRENT_VERSION : Nat := 1

/-- Create a new empty history (src/history.rs:38-43). -/
def ChatHistory.new : ChatHistory :=
  ⟨ChatHistory.CURRENT_VERSION, []⟩

/-- Trim history to max size, keeping most recent messages
(src/history.rs:67-72): when more than `MAX_HISTORY_SIZE` messages are
present, `drain(0..excess)` removes the first `excess` of them. -/
def ChatHistory.trim_to_limit (h : ChatHistory) : ChatHistory :=
  if h.messages.length > MAX_HISTORY_SIZE then
    ⟨h.version, h.messages.drop (h.messages.length - MAX_HISTORY_SIZE)⟩
  else h

/-- State of the history file as seen by `load_history`
(src/history.rs:90-109): the path does not exist, `File::open` fails, or
the file opens with the given contents. -/
inductive FileState where
  | missing
  | unreadable
  | contents (s : String)

/-- Load chat history from disk (src/history.rs:90-109).  The function is
total: every failure path returns `ChatHistory.new`.  serde_json's
deserializer is external code, so it enters as the parameter
`parseHistory` (`none` models `Err(_)` from `from_reader`). -/
def load_history (parseHistory : String → Option ChatHistory)
    (f : FileState) : ChatHistory :=
  match f with
  | .missing => ChatHistory.new
  | .unreadable => ChatHistory.new
  | .contents s =>
    match parseHistory s with
    | some h => h
    | none => ChatHistory.new

/- ### Context gathering (src/context.rs) -/

/-- Maximum size for clipboard/selection content (src/context.rs:11). -/
def MAX_CONTENT_SIZE : Nat := 2000

/-- Maximum size for journal error output (src/context.rs:14). -/
def MAX_ERROR_SIZE : Nat := 1500

/-- Mirrors Rust `str::trim` (leading and trailing whitespace removed) as
used at src/context.rs:105, over the character sequence. -/
def rustTrim (s : String) : String :=
  String.mk (((s.data.dropWhile Char.isWhitespace).reverse.dropWhile
    Char.isWhitespace).reverse)

/-- Outcome of one external utility invocation as observed through
`std::process::Command::output` (src/context.rs:99-102): an I/O error
from spawning, or an exit with a success flag and captured stdout
(`none` models bytes that are not valid UTF-8, src/context.rs:104). -/
inductive CmdOutcome where
  | ioFailure
  | exited (success : Bool) (stdoutUtf8 : Option String)

/-- Execute a command and return trimmed stdout if successful
(fn `run_cmd`, src/context.rs:98-107): `None` on spawn failure, non-zero
exit status, invalid UTF-8, or empty-after-trim output. -/
def runCmd (o : CmdOutcome) : Option String :=
  match o with
  | .ioFailure => none
  | .exited success stdout =>
    if success then
      match stdout with
      | none => none
      | some s =>
        let t := rustTrim s
        if t = "" then none else some t
    else none

/-- Collected system context for AI prompts (struct `Context`, src/context.rs:17-27). -/
structure Context where
  clipboard : Option String
  selection : Option String
  system_info : Option String
  recent_errors : Option String
deriving DecidableEq

/-- Clipboard gathering (fn `get_clipboard`, src/context.rs:63-65), given
the outcome of the `wl-paste --no-newline` invocation: results of at
least `MAX_CONTENT_SIZE` bytes (Rust `s.len()` is the UTF-8 byte length)
are filtered out. -/
def Context.get_clipboard (o : CmdOutcome) : Option String :=
  (runCmd o).filter (fun s => s.utf8ByteSize < MAX_CONTENT_SIZE)

/-- Primary-selection gathering (fn `get_selection`, src/context.rs:67-72),
given the outcome of `wl-paste --primary --no-newline`: the size filter,
then exclusion when equal to the clipboard. -/
def Context.get_selection (o : CmdOutcome) (clipboard : Option String) :
    Option String :=
  ((runCmd o).filter (fun s => s.utf8ByteSize < MAX_CONTENT_SIZE)).filter
    (fun s => clipboard != some s)

/-- System information gathering (fn `get_system_info`, src/context.rs:74-89),
given the outcomes of the `lsb_release -d -s`, `uname -r` and
`free -h --si` invocations.  `Some` is returned exactly when the distro
string is non-empty; kernel and memory failures degrade to empty parts. -/
def Context.get_system_info (distroO kernelO memO : CmdOutcome) : Option String :=
  let distro := (runCmd distroO).getD ""
  let kernel := (runCmd kernelO).getD ""
  let mem := (runCmd memO).bind (fun s => (rustLines s).get? 1)
  if distro = "" then none
  else some ("OS: " ++ distro ++ ", Kernel: " ++ kernel ++ ", Memory: " ++ mem.getD "")

/-- Recent-error gathering (fn `get_recent_errors`, src/context.rs:91-94),
given the outcome of the `journalctl` invocation. -/
def Context.get_recent_errors (o : CmdOutcome) : Option String :=
  (runCmd o).filter (fun s => s.utf8ByteSize < MAX_ERROR_SIZE)

/-- Gather all available context (fn `Context::gather`, src/context.rs:31-41),
given the outcomes of the six external utility invocations.  Total: no
utility outcome makes the gather itself fail. -/
def Context.gather (clipO selO distroO kernelO memO errO : CmdOutcome) : Context :=
  let clipboard := Context.get_clipboard clipO
  let selection := Context.get_selection selO clipboard
  ⟨clipboard, selection, Context.get_system_info distroO kernelO memO,
    Context.get_recent_errors errO⟩

/-- The clipboard section appended by `format` (src/context.rs:48). -/
def clipboardSection (clip : String) : String :=
  "\n\n## Clipboard:\n```\n" ++ clip ++ "\n```"

/-- The selected-text section appended by `format` (src/context.rs:51). -/
def selectionSection (sel : String) : String :=
  "\n\n## Selected text:\n```\n" ++ sel ++ "\n```"

/-- The system section appended by `format` (src/context.rs:54). -/
def systemSection (info : String) : String :=
  "\n\n## System: " ++ info

/-- The recent-errors section appended by `format` (src/context.rs:57). -/
def errorsSection (errs : String) : String :=
  "\n\n## Recent errors:\n```\n" ++ errs ++ "\n```"

/-- Renders an optional section; an absent field contributes nothing. -/
def optSection (f : String → String) : Option String → String
  | some s => f s
  | none => ""

/-- Build a formatted context string for the AI system prompt
(fn `Context::format`, src/context.rs:44-61): the base prompt followed by
the sections of the present fields, in the fixed order clipboard,
selection, system info, recent errors (the Rust builds the same string
via a `Vec` of parts joined with the empty separator). -/
def Context.format (c : Context) (base_prompt : String) : String :=
  base_prompt
    ++ optSection clipboardSection c.clipboard
    ++ optSection selectionSection c.selection
    ++ optSection systemSection c.system_info
    ++ optSection errorsSection c.recent_errors

/- ### Model size formatting (src/ollama.rs:121-130) -/

/-- Bytes per gibibyte (src/ollama.rs:123). -/
def GB : Nat := 1024 * 1024 * 1024

/-- Bytes per mebibyte (src/ollama.rs:124). -/
def MB : Nat := 1024 * 1024

/-- Rounds the fraction `num / den` to the nearest integer, ties to even —
the rounding Rust float formatting applies to the exact decimal value of
an `f64` when a precision is given. -/
def roundHalfEven (num den : Nat) : Nat :=
  let q := num / den
  let r := num % den
  if 2 * r < den then q
  else if den < 2 * r then q + 1
  else if q % 2 = 0 then q else q + 1

/-- Format bytes into human-readable size (fn `format_size`,
src/ollama.rs:122-130).  The Rust computes `bytes as f64 / GB as f64` and
prints it with `{:.1}` (respectively `/ MB` with `{:.0}`); for
`bytes < 2^53` the conversion to `f64` is exact and the division by a
power of two only changes the exponent, so the printed value is the exact
rational rounded at the last kept decimal digit, ties to even — which is
what this definition computes.  (For `bytes ≥ 2^53` the `f64` conversion
may round the last units, which cannot change which branch is taken nor
the shape of the output.) -/
def format_size (bytes : Nat) : String :=
  if bytes ≥ GB then
    let t := roundHalfEven (10 * bytes) GB
    toString (t / 10) ++ "." ++ toString (t % 10) ++ " GB"
  else
    toString (roundHalfEven bytes MB) ++ " MB"

/-- A one-decimal gigabyte rendering, as produced by `format!("{:.1} GB", _)`
on a value with integral part `n / 10` and tenths digit `n % 10`. -/
def isOneDecimalGB (s : String) : Prop :=
  ∃ n : Nat, s = toString (n / 10) ++ "." ++ toString (n % 10) ++ " GB"

/-- A whole-number megabyte rendering, as produced by `format!("{:.0} MB", _)`. -/
def isWholeMB (s : String) : Prop :=
  ∃ n : Nat, s = toString n ++ " MB"

/- ### Helper lemmas -/

/-- `trim_to_limit` is the drop of all but the last `MAX_HISTORY_SIZE`
messages, in both branches of its guard. -/
lemma trim_to_limit_eq_drop (h : ChatHistory) :
    h.trim_to_limit =
      ⟨h.version, h.messages.drop (h.messages.length - MAX_HISTORY_SIZE)⟩ := by
  unfold ChatHistory.trim_to_limit
  by_cases hl : h.messages.length > MAX_HISTORY_SIZE
  · simp [hl]
  · have h0 : h.messages.length - MAX_HISTORY_SIZE = 0 := by omega
    simp [hl, h0]

/-- An option filter yields `some` exactly when the input was that `some`
and the predicate holds. -/
lemma option_filter_some_iff {α : Type} (p : α → Bool) (o : Option α) (a : α) :
    o.filter p = some a ↔ o = some a ∧ p a = true := by
  cases o with
  | none => simp [Option.filter]
  | some t =>
    by_cases hp : p t = true
    · simp only [Option.filter, if_pos hp, Option.some.injEq]
      constructor
      · rintro rfl
        exact ⟨rfl, hp⟩
      · exact fun h => h.1
    · simp only [Option.filter, if_neg hp, Option.some.injEq]
      constructor
      · exact fun h => nomatch h
      · rintro ⟨rfl, hpa⟩
        exact absurd hpa hp

/-- `runCmd` never returns an empty string (it filters empty output). -/
lemma runCmd_some_ne_empty (o : CmdOutcome) (s : String)
    (h : runCmd o = some s) : ¬ s = "" := by
  unfold runCmd at h
  cases o with
  | ioFailure => cases h
  | exited success stdout =>
    cases success with
    | false => simp at h
    | true =>
      cases stdout with
      | none => simp at h
      | some t =>
        simp only [if_pos] at h
        by_cases ht : rustTrim t = ""
        · rw [if_pos ht] at h
          cases h
        · rw [if_neg ht] at h
          cases h
          exact ht

/-- `get_clipboard` yields `some` exactly for a successful capture whose
byte size is strictly below the content ceiling. -/
lemma get_clipboard_some_iff (o : CmdOutcome) (s : String) :
    Context.get_clipboard o = some s ↔
      runCmd o = some s ∧ s.utf8ByteSize < MAX_CONTENT_SIZE := by
  unfold Context.get_clipboard
  rw [option_filter_some_iff]
  simp

/-- `get_recent_errors` yields `some` exactly for a successful capture
whose byte size is strictly below the error-log ceiling. -/
lemma get_recent_errors_some_iff (o : CmdOutcome) (s : String) :
    Context.get_recent_errors o = some s ↔
      runCmd o = some s ∧ s.utf8ByteSize < MAX_ERROR_SIZE := by
  unfold Context.get_recent_errors
  rw [option_filter_some_iff]
  simp

/-- Dropping a whitespace prefix from a run of a non-whitespace character
drops nothing. -/
lemma dropWhile_ws_replicate {c : Char} (n : Nat) (hc : c.isWhitespace = false) :
    (List.replicate n c).dropWhile Char.isWhitespace = List.replicate n c := by
  cases n with
  | zero => rfl
  | succ m => simp [List.replicate_succ, List.dropWhile_cons, hc]

/-- Trimming a run of a non-whitespace character is the identity. -/
lemma rustTrim_replicate {c : Char} (n : Nat) (hc : c.isWhitespace = false) :
    rustTrim (String.mk (List.replicate n c)) = String.mk (List.replicate n c) := by
  simp [rustTrim, dropWhile_ws_replicate _ hc, List.reverse_replicate]

/-- Byte size of a run of one character. -/
lemma utf8Len_replicate (n : Nat) (c : Char) :
    String.utf8Len (List.replicate n c) = n * c.utf8Size := by
  induction n with
  | zero => simp
  | succ m ih => rw [List.replicate_succ]; simp [ih]; ring

/-- A nonempty run of a character is not the empty string. -/
lemma mk_replicate_ne_empty (n : Nat) (c : Char) (hn : 0 < n) :
    ¬ String.mk (List.replicate n c) = "" := by
  intro h
  have h2 : (List.replicate n c).length = ([] : List Char).length :=
    congrArg (fun s => s.data.length) h
  rw [List.length_replicate, List.length_nil] at h2
  omega

/-- `runCmd` on a zero-exit invocation whose output is a run of a
non-whitespace character returns that run unchanged. -/
lemma runCmd_replicate {c : Char} (n : Nat) (hn : 0 < n)
    (hc : c.isWhitespace = false) :
    runCmd (.exited true (some (String.mk (List.replicate n c)))) =
      some (String.mk (List.replicate n c)) := by
  have h1 : runCmd (.exited true (some (String.mk (List.replicate n c)))) =
      (if rustTrim (String.mk (List.replicate n c)) = "" then none
       else some (rustTrim (String.mk (List.replicate n c)))) := rfl
  rw [h1, rustTrim_replicate _ hc, if_neg (mk_replicate_ne_empty n c hn)]

/-- Processing concatenated line lists composes: the second list's
processing becomes the continuation of the first. -/
lemma runLines_append (parse : String → Except String StreamChunk)
    (k : List StreamEvent) (ls₁ ls₂ : List String) :
    runLines parse k (ls₁ ++ ls₂) = runLines parse (runLines parse k ls₂) ls₁ := by
  induction ls₁ with
  | nil => rfl
  | cons l ls ih =>
    simp only [List.cons_append, runLines]
    by_cases hl : l = ""
    · simp [hl, ih]
    · simp only [if_neg hl]
      cases hp : parse l with
      | error e => rfl
      | ok c =>
        cases hd : c.done with
        | true => simp [hd]
        | false =>
          cases hm : c.message with
          | none => simp [hd, hm, ih]
          | some msg =>
            by_cases hc : msg.content = ""
            · simp [hd, hm, hc, ih]
            · simp [hd, hm, hc, ih]

/-- A run of chunks each carrying whole lines is processed exactly like
the flat sequence of those lines, with the remaining chunks processed
at the end. -/
lemma runChunks_ok_map (parse : String → Except String StreamChunk)
    (texts : List String) (rest : List (Except String String)) :
    runChunks parse (texts.map Except.ok ++ rest) =
      runLines parse (runChunks parse rest) (texts.map rustLines).flatten := by
  induction texts with
  | nil => rfl
  | cons t ts ih =>
    simp only [List.map_cons, List.cons_append, runChunks, List.flatten_cons,
      List.append_eq]
    rw [ih, runLines_append]

/-- A line parsing with `done = true` produces exactly `Done`, whatever
lines or continuation follow. -/
lemma runLines_done (parse : String → Except String StreamChunk)
    (k : List StreamEvent) (dl : String) (extra : List String)
    (m : Option StreamMessage) (h1 : ¬ dl = "")
    (h2 : parse dl = .ok ⟨m, true⟩) :
    runLines parse k (dl :: extra) = [StreamEvent.Done] := by
  simp [runLines, if_neg h1, h2]

/-- Lines parsing with `done = false` and a present non-empty content each
contribute one `Chunk`, in order, before the continuation. -/
lemma runLines_chunks (parse : String → Except String StreamChunk)
    (lcs : List (String × String)) (k : List StreamEvent)
    (h : ∀ p ∈ lcs, ¬ p.1 = "" ∧ parse p.1 = .ok ⟨some ⟨p.2⟩, false⟩ ∧ ¬ p.2 = "") :
    runLines parse k (lcs.map Prod.fst) =
      lcs.map (fun p => StreamEvent.Chunk p.2) ++ k := by
  induction lcs with
  | nil => rfl
  | cons p ps ih =>
    obtain ⟨h1, h2, h3⟩ := h p (List.mem_cons_self p ps)
    have ih' := ih (fun q hq => h q (List.mem_cons_of_mem p hq))
    simp only [List.map_cons, runLines, if_neg h1, h2, List.cons_append]
    simp [h3, ih']

/-- The line loop preserves the canonical event shape: some `Chunk`s
followed by exactly one terminal event. -/
lemma runLines_shape (parse : String → Except String StreamChunk)
    (ls : List String) (k : List StreamEvent)
    (hk : ∃ (cs : List String) (t : StreamEvent),
      k = cs.map StreamEvent.Chunk ++ [t] ∧
      (t = StreamEvent.Done ∨ ∃ e, t = StreamEvent.Error e)) :
    ∃ (cs : List String) (t : StreamEvent),
      runLines parse k ls = cs.map StreamEvent.Chunk ++ [t] ∧
      (t = StreamEvent.Done ∨ ∃ e, t = StreamEvent.Error e) := by
  induction ls with
  | nil => exact hk
  | cons l ls ih =>
    simp only [runLines]
    by_cases hl : l = ""
    · simpa [hl] using ih
    · simp only [if_neg hl]
      cases hp : parse l with
      | error e => exact ⟨[], .Error _, rfl, Or.inr ⟨_, rfl⟩⟩
      | ok c =>
        cases hd : c.done with
        | true => exact ⟨[], .Done, by simp [hd], Or.inl rfl⟩
        | false =>
          cases hm : c.message with
          | none => simpa [hd, hm] using ih
          | some msg =>
            by_cases hc : msg.content = ""
            · simpa [hd, hm, hc] using ih
            · obtain ⟨cs, t, hkt, ht⟩ := ih
              exact ⟨msg.content :: cs, t, by simp [hd, hm, hc, hkt], ht⟩

/-- The chunk loop always produces some `Chunk`s followed by exactly one
terminal event. -/
lemma runChunks_shape (parse : String → Except String StreamChunk)
    (chunks : List (Except String String)) :
    ∃ (cs : List String) (t : StreamEvent),
      runChunks parse chunks = cs.map StreamEvent.Chunk ++ [t] ∧
      (t = StreamEvent.Done ∨ ∃ e, t = StreamEvent.Error e) := by
  induction chunks with
  | nil => exact ⟨[], .Done, rfl, Or.inl rfl⟩
  | cons c rest ih =>
    cases c with
    | error e => exact ⟨[], .Error _, rfl, Or.inr ⟨_, rfl⟩⟩
    | ok text => exact runLines_shape parse (rustLines text) _ ih

/-- When every line is empty or parses without `done`, the line loop
never emits a terminal of its own, so a `Done`-terminated continuation
stays `Done`-terminated. -/
lemma runLines_no_terminal (parse : String → Except String StreamChunk)
    (ls : List String) (k : List StreamEvent)
    (h : ∀ l ∈ ls, l = "" ∨ ∃ c : StreamChunk, parse l = .ok c ∧ c.done = false)
    (hk : ∃ cs : List String, k = cs.map StreamEvent.Chunk ++ [StreamEvent.Done]) :
    ∃ cs : List String,
      runLines parse k ls = cs.map StreamEvent.Chunk ++ [StreamEvent.Done] := by
  induction ls with
  | nil => exact hk
  | cons l ls ih =>
    have hrest := fun x hx => h x (List.mem_cons_of_mem l hx)
    simp only [runLines]
    by_cases hle : l = ""
    · simpa [hle] using ih hrest
    · rcases h l (List.mem_cons_self l ls) with hl | ⟨c, hc, hcd⟩
      · exact absurd hl hle
      · simp only [if_neg hle, hc]
        cases hm : c.message with
        | none => simpa [hcd, hm] using ih hrest
        | some msg =>
          by_cases hcc : msg.content = ""
          · simpa [hcd, hm, hcc] using ih hrest
          · obtain ⟨cs, hcs⟩ := ih hrest
            exact ⟨msg.content :: cs, by simp [hcd, hm, hcc, hcs]⟩

/-- A successful status dispatches to the chunk loop. -/
lemma chat_stream_events_success (parse : String → Except String StreamChunk)
    (status : Nat) (body : List (Except String String))
    (hs : statusIsSuccess status = true) :
    chat_stream_events parse (.response status body) = runChunks parse body := by
  show (if statusIsSuccess status = true then runChunks parse body
    else [.Error ("Ollama error: " ++ toString status)]) = runChunks parse body
  rw [if_pos hs]

/-- A non-success status yields the single status error event. -/
lemma chat_stream_events_bad_status (parse : String → Except String StreamChunk)
    (status : Nat) (body : List (Except String String))
    (hs : statusIsSuccess status = false) :
    chat_stream_events parse (.response status body) =
      [StreamEvent.Error ("Ollama error: " ++ toString status)] := by
  show (if statusIsSuccess status = true then runChunks parse body
    else [.Error ("Ollama error: " ++ toString status)]) = _
  rw [if_neg]
  simp [hs]

/- ### Claim theorems (streaming) -/

/-- C1 — Stream termination: for a successful response whose raw chunks
each carry whole NDJSON lines, and whose line sequence is k lines
parsing with `done = false` and a present non-empty `message.content`
followed by one line parsing with `done = true`, the channel carries
exactly the k `Chunk` events with those contents in input order and then
exactly one `Done` — whatever data (`extra` lines in the same chunks, or
further `rest` chunks, even erroneous ones) follows the `done` line. -/
theorem chat_stream_termination (parse : String → Except String StreamChunk)
    (texts : List String) (rest : List (Except String String))
    (lcs : List (String × String)) (dl : String) (extra : List String)
    (m : Option StreamMessage)
    (hflat : (texts.map rustLines).flatten = lcs.map Prod.fst ++ dl :: extra)
    (hlc : ∀ p ∈ lcs, ¬ p.1 = "" ∧ parse p.1 = .ok ⟨some ⟨p.2⟩, false⟩ ∧ ¬ p.2 = "")
    (hdl : ¬ dl = "") (hdone : parse dl = .ok ⟨m, true⟩) :
    chat_stream_events parse (.response 200 (texts.map Except.ok ++ rest)) =
      lcs.map (fun p => StreamEvent.Chunk p.2) ++ [StreamEvent.Done] := by
  rw [chat_stream_events_success parse 200 _ rfl,
    runChunks_ok_map, hflat, runLines_append,
    runLines_done parse _ dl extra m hdl hdone]
  exact runLines_chunks parse lcs _ hlc

/-- Witness for C1: one chunk "A\nD\njunk" plus a trailing transport
error; line A yields a chunk, line D is the done line, the junk line and
the lost transport chunk are ignored. -/
theorem chat_stream_termination_witness :
    chat_stream_events
      (fun l =>
        if l = "A" then .ok ⟨some ⟨"hello"⟩, false⟩
        else if l = "D" then .ok ⟨none, true⟩
        else .error "bad")
      (.response 200 (["A\nD\njunk"].map Except.ok ++ [Except.error "boom"])) =
      [StreamEvent.Chunk "hello", StreamEvent.Done] :=
  chat_stream_termination _ ["A\nD\njunk"] [Except.error "boom"]
    [("A", "hello")] "D" ["junk"] none
    (by decide)
    (by
      intro p hp
      rw [List.mem_singleton] at hp
      subst hp
      exact ⟨by decide, rfl, by decide⟩)
    (by decide) rfl

/-- C2 — Malformed line abort: in a three-line body whose second line
fails to parse, the channel carries the `Chunk` from the (valid,
non-empty-content) first line, then exactly one `Error`, and nothing
derived from the third line. -/
theorem malformed_line_abort (parse : String → Except String StreamChunk)
    (texts : List String) (l1 l2 l3 c1 e : String)
    (hflat : (texts.map rustLines).flatten = [l1, l2, l3])
    (h1 : ¬ l1 = "") (h1p : parse l1 = .ok ⟨some ⟨c1⟩, false⟩) (h1c : ¬ c1 = "")
    (h2 : ¬ l2 = "") (h2p : parse l2 = .error e) :
    chat_stream_events parse (.response 200 (texts.map Except.ok)) =
      [StreamEvent.Chunk c1, StreamEvent.Error ("Parse error: " ++ e)] := by
  rw [chat_stream_events_success parse 200 _ rfl,
    show texts.map Except.ok = texts.map Except.ok ++ []
      from (List.append_nil _).symm,
    runChunks_ok_map, hflat]
  simp [runLines, h1, h1p, h1c, h2, h2p]

/-- Witness for C2: the body "A\nBAD\nA" whose middle line is rejected by
the parser. -/
theorem malformed_line_abort_witness :
    chat_stream_events
      (fun l =>
        if l = "A" then .ok ⟨some ⟨"hello"⟩, false⟩
        else if l = "D" then .ok ⟨none, true⟩
        else .error "bad")
      (.response 200 (["A\nBAD\nA"].map Except.ok)) =
      [StreamEvent.Chunk "hello", StreamEvent.Error ("Parse error: " ++ "bad")] :=
  malformed_line_abort _ ["A\nBAD\nA"] "A" "BAD" "A" "hello" "bad"
    (by decide) (by decide) rfl (by decide) (by decide) rfl

/-- C3 — One-terminal-event invariant: for every transport outcome and
every response body, the event sequence the background task places on
the channel (after which the channel closes) consists of some `Chunk`
events followed by exactly one terminal event, `Done` or `Error` — so
exactly one terminal is produced and nothing follows it. -/
theorem chat_stream_one_terminal (parse : String → Except String StreamChunk)
    (r : SendResult) :
    ∃ (cs : List String) (t : StreamEvent),
      chat_stream_events parse r = cs.map StreamEvent.Chunk ++ [t] ∧
      (t = StreamEvent.Done ∨ ∃ e, t = StreamEvent.Error e) := by
  cases r with
  | connErr e => exact ⟨[], .Error _, rfl, Or.inr ⟨_, rfl⟩⟩
  | response status body =>
    cases hs : statusIsSuccess status with
    | true =>
      rw [chat_stream_events_success parse status body hs]
      exact runChunks_shape parse body
    | false =>
      rw [chat_stream_events_bad_status parse status body hs]
      exact ⟨[], .Error _, rfl, Or.inr ⟨_, rfl⟩⟩

/-- C4 — Silent-closure leniency: when the byte stream ends with every
delivered chunk transport-successful and every line either empty or
parsing with `done = false` (no `done` line, no parse error, no
transport error), the task still terminates the event sequence with
`Done`. -/
theorem silent_closure_done (parse : String → Except String StreamChunk)
    (texts : List String)
    (h : ∀ l ∈ (texts.map rustLines).flatten, l = "" ∨
      ∃ c : StreamChunk, parse l = .ok c ∧ c.done = false) :
    ∃ cs : List String,
      chat_stream_events parse (.response 200 (texts.map Except.ok)) =
      cs.map StreamEvent.Chunk ++ [StreamEvent.Done] := by
  rw [chat_stream_events_success parse 200 _ rfl,
    show texts.map Except.ok = texts.map Except.ok ++ []
      from (List.append_nil _).symm,
    runChunks_ok_map]
  exact runLines_no_terminal parse _ _ h ⟨[], rfl⟩

/-- Witness for C4: two chunks of content lines, no done line anywhere. -/
theorem silent_closure_done_witness :
    ∃ cs : List String,
      chat_stream_events (fun _ => .ok ⟨some ⟨"x"⟩, false⟩)
        (.response 200 (["A\nB", "C"].map Except.ok)) =
      cs.map StreamEvent.Chunk ++ [StreamEvent.Done] :=
  silent_closure_done _ ["A\nB", "C"]
    (fun _ _ => Or.inr ⟨⟨some ⟨"x"⟩, false⟩, rfl, rfl⟩)

/-- C5 — Trim FIFO and idempotence: `trim_to_limit` keeps exactly the
last-appended messages, by position (the version and the relative order
of the kept suffix are untouched): the result is the drop of all but the
last `MAX_HISTORY_SIZE = 100` messages, its length is the minimum of the
original length and 100 (so a list of length `N > 100` keeps exactly 100
and a list of length at most 100 is unchanged, the drop being a drop of
zero), and trimming twice equals trimming once. -/
theorem trim_to_limit_fifo_idem (h : ChatHistory) :
    h.trim_to_limit =
      ⟨h.version, h.messages.drop (h.messages.length - MAX_HISTORY_SIZE)⟩ ∧
    h.trim_to_limit.messages.length = min h.messages.length MAX_HISTORY_SIZE ∧
    h.trim_to_limit.trim_to_limit = h.trim_to_limit ∧
    MAX_HISTORY_SIZE = 100 := by
  refine ⟨trim_to_limit_eq_drop h, ?_, ?_, rfl⟩
  · rw [trim_to_limit_eq_drop h]
    simp [List.length_drop]
    omega
  · rw [trim_to_limit_eq_drop h.trim_to_limit, trim_to_limit_eq_drop h]
    simp [List.length_drop, List.drop_drop]
    congr 1
    omega

/-- C6 — History load resilience: `load_history` is a total function (no
error is ever raised), and on every failure — missing file, unreadable
file, or contents the deserializer rejects — it returns the fresh empty
history, whose version is the current one and whose message list is
empty. -/
theorem load_history_resilient (parseHistory : String → Option ChatHistory)
    (f : FileState)
    (hfail : f = .missing ∨ f = .unreadable ∨
      ∃ s, f = .contents s ∧ parseHistory s = none) :
    load_history parseHistory f = ChatHistory.new ∧
    ChatHistory.new.version = ChatHistory.CURRENT_VERSION ∧
    ChatHistory.new.messages = [] := by
  refine ⟨?_, rfl, rfl⟩
  rcases hfail with hf | hf | ⟨s, hf, hp⟩ <;> subst hf <;>
    simp [load_history, *]

/-- Witness for C6 at a missing file and an always-failing deserializer. -/
theorem load_history_resilient_witness :
    load_history (fun _ => none) .missing = ChatHistory.new ∧
    ChatHistory.new.version = ChatHistory.CURRENT_VERSION ∧
    ChatHistory.new.messages = [] :=
  load_history_resilient (fun _ => none) .missing (Or.inl rfl)

/-- C8 — Size formatting boundary: `format_size` renders exactly one
gibibyte as "1.0 GB" and one byte less as "1024 MB"; every count of at
least `1024 ^ 3` bytes renders as a one-decimal GB string and every
smaller count as a whole-number MB string. -/
theorem format_size_boundary :
    format_size (1024 ^ 3) = "1.0 GB" ∧
    format_size (1024 ^ 3 - 1) = "1024 MB" ∧
    (∀ b : Nat, 1024 ^ 3 ≤ b → isOneDecimalGB (format_size b)) ∧
    (∀ b : Nat, b < 1024 ^ 3 → isWholeMB (format_size b)) := by
  refine ⟨by decide, by decide, ?_, ?_⟩
  · intro b hb
    refine ⟨roundHalfEven (10 * b) GB, ?_⟩
    unfold format_size
    rw [if_pos]
    show GB ≤ b
    calc GB = 1024 ^ 3 := by decide
      _ ≤ b := hb
  · intro b hb
    refine ⟨roundHalfEven b MB, ?_⟩
    unfold format_size
    rw [if_neg]
    intro hge
    have : GB = 1024 ^ 3 := by decide
    omega

/-- Witness for C8: the GB shape at exactly one gibibyte, the MB shape at
5 bytes. -/
theorem format_size_boundary_witness :
    (1024 ^ 3 ≤ 1024 ^ 3 ∧ isOneDecimalGB (format_size (1024 ^ 3))) ∧
    ((5 : Nat) < 1024 ^ 3 ∧ isWholeMB (format_size 5)) :=
  ⟨⟨le_refl _, format_size_boundary.2.2.1 (1024 ^ 3) (le_refl _)⟩,
   ⟨by decide, format_size_boundary.2.2.2 5 (by decide)⟩⟩

/-- C7 — Selection dedup: whenever the clipboard capture survives its
filters (so the `Context` has `clipboard = some X`) and the
primary-selection capture yields the identical text `X`, the gathered
`Context` has `selection = none`, and `format` produces the base prompt
followed by the clipboard section and the remaining optional sections —
with no selected-text section. -/
theorem selection_dedup (base X : String)
    (clipO selO distroO kernelO memO errO : CmdOutcome)
    (hclip : Context.get_clipboard clipO = some X)
    (hsel : runCmd selO = some X) :
    (Context.gather clipO selO distroO kernelO memO errO).selection = none ∧
    (Context.gather clipO selO distroO kernelO memO errO).clipboard = some X ∧
    (Context.gather clipO selO distroO kernelO memO errO).format base =
      base ++ clipboardSection X
        ++ optSection systemSection (Context.get_system_info distroO kernelO memO)
        ++ optSection errorsSection (Context.get_recent_errors errO) := by
  have hsize : X.utf8ByteSize < MAX_CONTENT_SIZE :=
    ((get_clipboard_some_iff _ _).mp hclip).2
  have hselnone : Context.get_selection selO (Context.get_clipboard clipO) = none := by
    unfold Context.get_selection
    rw [hsel, hclip]
    simp [Option.filter, hsize]
  have hg : Context.gather clipO selO distroO kernelO memO errO =
      ⟨some X, none, Context.get_system_info distroO kernelO memO,
        Context.get_recent_errors errO⟩ := by
    show (⟨Context.get_clipboard clipO,
        Context.get_selection selO (Context.get_clipboard clipO),
        Context.get_system_info distroO kernelO memO,
        Context.get_recent_errors errO⟩ : Context) = _
    rw [hselnone, hclip]
  rw [hg]
  refine ⟨rfl, rfl, ?_⟩
  simp [Context.format, optSection, String.append_empty]

/-- Witness for C7: clipboard and primary selection both capture "X". -/
theorem selection_dedup_witness :
    Context.get_clipboard (.exited true (some "X")) = some "X" ∧
    runCmd (.exited true (some "X")) = some "X" ∧
    ((Context.gather (.exited true (some "X")) (.exited true (some "X"))
        .ioFailure .ioFailure .ioFailure .ioFailure).selection = none ∧
     (Context.gather (.exited true (some "X")) (.exited true (some "X"))
        .ioFailure .ioFailure .ioFailure .ioFailure).clipboard = some "X" ∧
     (Context.gather (.exited true (some "X")) (.exited true (some "X"))
        .ioFailure .ioFailure .ioFailure .ioFailure).format "p" =
       "p" ++ clipboardSection "X"
         ++ optSection systemSection
             (Context.get_system_info .ioFailure .ioFailure .ioFailure)
         ++ optSection errorsSection (Context.get_recent_errors .ioFailure)) :=
  ⟨by decide, by decide,
   selection_dedup "p" "X" (.exited true (some "X")) (.exited true (some "X"))
     .ioFailure .ioFailure .ioFailure .ioFailure (by decide) (by decide)⟩

/-- C9 counterexample: the claim asserts that an I/O failure of a context
field's external utility invocation always leaves that field absent, but
when `lsb_release` succeeds while `uname` and `free` both fail with I/O
errors, `get_system_info` still returns a present field (with empty
kernel and memory parts), so the gathered `systemInfo` is not `none`. -/
theorem context_field_drop_counterexample :
    Context.get_system_info (.exited true (some "Pop!_OS 22.04 LTS"))
        .ioFailure .ioFailure = some "OS: Pop!_OS 22.04 LTS, Kernel: , Memory: " ∧
    (Context.gather .ioFailure .ioFailure (.exited true (some "Pop!_OS 22.04 LTS"))
        .ioFailure .ioFailure .ioFailure).system_info ≠ none := by
  exact ⟨by decide, by decide⟩

/-- C9 amended — Per-field drop policy: for the clipboard, selection and
recent-errors fields, every failed utility invocation (spawn I/O error,
non-zero exit, non-UTF-8 output — all the cases in which `runCmd`
returns `none`) and every capture at or above the field's byte ceiling
leaves that field absent, and the gather itself is a total function; the
`systemInfo` field however is governed solely by the distro utility: it
is absent exactly when `lsb_release` fails, while `uname`/`free`
failures only degrade to empty parts inside a still-present field. -/
theorem context_field_drop_amended :
    (∀ s : Option String, runCmd .ioFailure = none ∧
      runCmd (.exited false s) = none ∧ runCmd (.exited true none) = none) ∧
    (∀ o c, runCmd o = none → Context.get_clipboard o = none ∧
      Context.get_selection o c = none ∧ Context.get_recent_errors o = none) ∧
    (∀ o s c, runCmd o = some s → MAX_CONTENT_SIZE ≤ s.utf8ByteSize →
      Context.get_clipboard o = none ∧ Context.get_selection o c = none) ∧
    (∀ o s, runCmd o = some s → MAX_ERROR_SIZE ≤ s.utf8ByteSize →
      Context.get_recent_errors o = none) ∧
    (∀ distroO kernelO memO, runCmd distroO = none →
      Context.get_system_info distroO kernelO memO = none) ∧
    (∀ distroO kernelO memO d, runCmd distroO = some d →
      Context.get_system_info distroO kernelO memO =
        some ("OS: " ++ d ++ ", Kernel: " ++ ((runCmd kernelO).getD "")
          ++ ", Memory: "
          ++ (((runCmd memO).bind (fun s => (rustLines s).get? 1)).getD ""))) := by
  refine ⟨?_, ?_, ?_, ?_, ?_, ?_⟩
  · intro s
    exact ⟨rfl, rfl, rfl⟩
  · intro o c h
    refine ⟨?_, ?_, ?_⟩ <;>
      simp [Context.get_clipboard, Context.get_selection,
        Context.get_recent_errors, h, Option.filter]
  · intro o s c h hsz
    have hlt : ¬ s.utf8ByteSize < MAX_CONTENT_SIZE := by omega
    constructor
    · simp [Context.get_clipboard, h, Option.filter, hlt]
    · simp [Context.get_selection, h, Option.filter, hlt]
  · intro o s h hsz
    have hlt : ¬ s.utf8ByteSize < MAX_ERROR_SIZE := by omega
    simp [Context.get_recent_errors, h, Option.filter, hlt]
  · intro distroO kernelO memO h
    simp [Context.get_system_info, h]
  · intro distroO kernelO memO d h
    have hd := runCmd_some_ne_empty distroO d h
    simp [Context.get_system_info, h, hd]

/-- Witness for C9 amended: the failure branches at concrete outcomes. -/
theorem context_field_drop_amended_witness :
    runCmd .ioFailure = none ∧
    (Context.get_clipboard .ioFailure = none ∧
     Context.get_selection .ioFailure none = none ∧
     Context.get_recent_errors .ioFailure = none) ∧
    Context.get_system_info .ioFailure .ioFailure .ioFailure = none :=
  ⟨rfl, context_field_drop_amended.2.1 .ioFailure none rfl,
   context_field_drop_amended.2.2.2.2.1 .ioFailure .ioFailure .ioFailure rfl⟩

/-- C10 — Implicit cap exclusivity: the size ceilings are strict.  A
captured clipboard or primary-selection text of exactly
`MAX_CONTENT_SIZE = 2000` bytes is dropped, a captured error log of
exactly `MAX_ERROR_SIZE = 1500` bytes is dropped, and in general a field
is included exactly when its capture succeeded with a byte length
strictly below its ceiling. -/
theorem cap_exclusivity :
    (∀ o s, runCmd o = some s → s.utf8ByteSize = MAX_CONTENT_SIZE →
      Context.get_clipboard o = none ∧ ∀ c, Context.get_selection o c = none) ∧
    (∀ o s, runCmd o = some s → s.utf8ByteSize = MAX_ERROR_SIZE →
      Context.get_recent_errors o = none) ∧
    (∀ o s, Context.get_clipboard o = some s ↔
      runCmd o = some s ∧ s.utf8ByteSize < MAX_CONTENT_SIZE) ∧
    (∀ o s, Context.get_recent_errors o = some s ↔
      runCmd o = some s ∧ s.utf8ByteSize < MAX_ERROR_SIZE) ∧
    MAX_CONTENT_SIZE = 2000 ∧ MAX_ERROR_SIZE = 1500 := by
  refine ⟨?_, ?_, get_clipboard_some_iff, get_recent_errors_some_iff, rfl, rfl⟩
  · intro o s h hsz
    have hlt : ¬ s.utf8ByteSize < MAX_CONTENT_SIZE := by omega
    constructor
    · simp [Context.get_clipboard, h, Option.filter, hlt]
    · intro c
      simp [Context.get_selection, h, Option.filter, hlt]
  · intro o s h hsz
    have hlt : ¬ s.utf8ByteSize < MAX_ERROR_SIZE := by omega
    simp [Context.get_recent_errors, h, Option.filter, hlt]

/-- Witness for C10: a 2000-byte clipboard capture and a 1500-byte error
capture, both exactly at their ceilings, are dropped. -/
theorem cap_exclusivity_witness :
    runCmd (.exited true (some (String.mk (List.replicate 2000 'a')))) =
      some (String.mk (List.replicate 2000 'a')) ∧
    (String.mk (List.replicate 2000 'a')).utf8ByteSize = MAX_CONTENT_SIZE ∧
    Context.get_clipboard
      (.exited true (some (String.mk (List.replicate 2000 'a')))) = none ∧
    runCmd (.exited true (some (String.mk (List.replicate 1500 'b')))) =
      some (String.mk (List.replicate 1500 'b')) ∧
    (String.mk (List.replicate 1500 'b')).utf8ByteSize = MAX_ERROR_SIZE ∧
    Context.get_recent_errors
      (.exited true (some (String.mk (List.replicate 1500 'b')))) = none := by
  have ha : (String.mk (List.replicate 2000 'a')).utf8ByteSize = MAX_CONTENT_SIZE := by
    rw [String.utf8ByteSize_mk, utf8Len_replicate]
    decide
  have hb : (String.mk (List.replicate 1500 'b')).utf8ByteSize = MAX_ERROR_SIZE := by
    rw [String.utf8ByteSize_mk, utf8Len_replicate]
    decide
  have ra := runCmd_replicate (c := 'a') 2000 (by decide) (by decide)
  have rb := runCmd_replicate (c := 'b') 1500 (by decide) (by decide)
  exact ⟨ra, ha, (cap_exclusivity.1 _ _ ra ha).1, rb, hb,
    cap_exclusivity.2.1 _ _ rb hb⟩
